import Mathlib

/-!
Shallow embedding of the personal-memory agent (a small retrieval-augmented
chat program).  Text is modelled as `List Char`; Python sets of strings as
`Finset (List Char)`; the stable `list.sort` of CPython as `List.mergeSort`
(which is proved stable in the standard library).  Filesystem and network
collaborators are modelled as explicit inputs: the corpus builder takes the
list of discovered files as (name, contents) pairs, and the chat transport
is an oracle argument returning either a reply or a transport failure.
-/

namespace Agent

open scoped List

/-- ASCII case folding, as Python `str.lower` acts on the ASCII range.
Characters outside A–Z are left unchanged. -/
def lowerChar (c : Char) : Char :=
  if 65 ≤ c.toNat ∧ c.toNat ≤ 90 then Char.ofNat (c.toNat + 32) else c

/-- Membership in the character class of the regex used by the tokenizer:
lowercase ASCII letters (97–122), ASCII digits (48–57) and the apostrophe
(39). -/
def isTokChar (c : Char) : Bool :=
  decide ((97 ≤ c.toNat ∧ c.toNat ≤ 122) ∨ (48 ≤ c.toNat ∧ c.toNat ≤ 57) ∨ c.toNat = 39)

/-- Scanner for `runs`: `cur` holds the (reversed) run being read.  When a
character fails `p` the current run, if any, is emitted; a final nonempty
run is emitted at the end of the input. -/
def runsAux (p : Char → Bool) : List Char → List Char → List (List Char)
  | [], cur => if cur.isEmpty then [] else [cur.reverse]
  | c :: cs, cur =>
    if p c then runsAux p cs (c :: cur)
    else if cur.isEmpty then runsAux p cs []
    else cur.reverse :: runsAux p cs []

/-- Maximal runs of characters satisfying `p`, in order; characters failing
`p` are discarded and act only as separators.  This is `re.findall` for a
pattern matching one-or-more characters of a fixed class. -/
def runs (p : Char → Bool) (l : List Char) : List (List Char) :=
  runsAux p l []

/-- The function _tokenize from agent.py: lowercase the text, take the maximal runs of
characters in the class [a-z0-9 apostrophe], and collect them as a set. -/
def _tokenize (text : List Char) : Finset (List Char) :=
  (runs isTokChar (text.map lowerChar)).toFinset

/-- The whitespace characters stripped by Python `str.strip`:
space, tab, newline, carriage return, vertical tab, form feed. -/
def isPyWs (c : Char) : Bool :=
  decide (c.toNat = 32 ∨ c.toNat = 9 ∨ c.toNat = 10 ∨ c.toNat = 13 ∨
    c.toNat = 11 ∨ c.toNat = 12)

/-- Python `str.strip`: drop leading and trailing whitespace. -/
def pyStrip (s : List Char) : List Char :=
  ((s.dropWhile isPyWs).reverse.dropWhile isPyWs).reverse

/-- Python `sep.join(pieces)` for lists of characters. -/
def joinSep (sep : List Char) : List (List Char) → List Char
  | [] => []
  | [x] => x
  | x :: y :: xs => x ++ sep ++ joinSep sep (y :: xs)

/-- Python `s.split(sep)` for a nonempty separator, fuel-driven scan.
Every step consumes at least one character of `rest`, so the initial fuel
`length + 1` is never exhausted for a nonempty separator. -/
def splitSeqAux (sep : List Char) : Nat → List Char → List Char → List (List Char)
  | 0, acc, rest => [acc.reverse ++ rest]
  | fuel + 1, acc, rest =>
    if sep.isPrefixOf rest then
      acc.reverse :: splitSeqAux sep fuel [] (rest.drop sep.length)
    else
      match rest with
      | [] => [acc.reverse]
      | c :: t => splitSeqAux sep fuel (c :: acc) t

/-- Python `s.split(sep)`. -/
def splitSeq (sep s : List Char) : List (List Char) :=
  splitSeqAux sep (s.length + 1) [] s

/-- Decimal digit character. -/
def digitChar (d : Nat) : Char := Char.ofNat (48 + d)

/-- Decimal rendering of a natural number, fuel-driven
(fuel `n + 1` always suffices since `n / 10 < n` for `10 ≤ n`). -/
def natToCharsAux : Nat → Nat → List Char → List Char
  | 0, _, acc => acc
  | fuel + 1, n, acc =>
    let acc1 := digitChar (n % 10) :: acc
    if n < 10 then acc1 else natToCharsAux fuel (n / 10) acc1

/-- Decimal rendering of a natural number, as the f-string `{score}`
renders a Python int. -/
def natToChars (n : Nat) : List Char := natToCharsAux (n + 1) n []

/-- One paragraph chunk of a source document, as built by
`load_doc_chunks`: a dict `{source, text, tokens}`. -/
structure Fragment where
  source : List Char
  text : List Char
  tokens : Finset (List Char)
deriving DecidableEq

/-- The blank-line separator used to split files into paragraph chunks. -/
def blankSep : List Char := ['\n', '\n']

/-- The chunks contributed by one file: split the raw contents on blank
lines, strip each part, drop the empty ones, and pair each survivor with
the file name and its token set. -/
def chunksOfFile (name raw : List Char) : List Fragment :=
  (((splitSeq blankSep raw).map pyStrip).filter (fun p => !p.isEmpty)).map
    (fun p => { source := name, text := p, tokens := _tokenize p })

/-- The function load_doc_chunks from agent.py, over the list of (file name, contents)
pairs found in the documents directory.  A missing or empty directory is
the empty file list (Python `Path.glob` yields nothing and raises nothing). -/
def load_doc_chunks (files : List (List Char × List Char)) : List Fragment :=
  files.flatMap (fun f => chunksOfFile f.1 f.2)

/-- The sentinel returned when no chunk scores above zero. -/
def NO_RESULTS : List Char := "NO_RESULTS".data

/-- Keyword-overlap score of one chunk against a query:
`len(q_tokens & ch["tokens"])`. -/
def scoreOf (query : List Char) (ch : Fragment) : Nat :=
  (_tokenize query ∩ ch.tokens).card

/-- The `scored` list of search_docs: each chunk with positive score is
kept, paired with its score, in corpus order. -/
def scoredOf (query : List Char) (chunks : List Fragment) : List (Nat × Fragment) :=
  chunks.filterMap (fun ch =>
    if 0 < scoreOf query ch then some (scoreOf query ch, ch) else none)

/-- The comparison of `scored.sort(key=lambda x: x[0], reverse=True)`:
`a` may precede `b` when the score of `a` is at least that of `b`. -/
def scoreRel (a b : Nat × Fragment) : Prop := b.1 ≤ a.1

instance : DecidableRel scoreRel := fun a b => Nat.decLe b.1 a.1

instance : IsTotal (Nat × Fragment) scoreRel := ⟨fun a b => Nat.le_total b.1 a.1⟩

instance : IsTrans (Nat × Fragment) scoreRel := ⟨fun _ _ _ h1 h2 => Nat.le_trans h2 h1⟩

/-- The `scored` list after the stable descending sort.  CPython list.sort
is a stable sort; it is modelled by the stable insertion sort of the
library. -/
def sortedScoredOf (query : List Char) (chunks : List Fragment) : List (Nat × Fragment) :=
  (scoredOf query chunks).insertionSort scoreRel

/-- The truncation best = scored[:top_k]. -/
def bestOf (query : List Char) (chunks : List Fragment) (top_k : Nat) : List (Nat × Fragment) :=
  (sortedScoredOf query chunks).take top_k

/-- The line rendered for one kept (score, chunk) pair:
`f"[source={ch[ source ]} score={score}] {ch[ text ]}"`. -/
def renderPair (p : Nat × Fragment) : List Char :=
  ("[source=").data ++ p.2.source ++ (" score=").data ++ natToChars p.1 ++
    ("] ").data ++ p.2.text

/-- The function search_docs from agent.py. -/
def search_docs (query : List Char) (chunks : List Fragment) (top_k : Nat) : List Char :=
  if (bestOf query chunks top_k).isEmpty then NO_RESULTS
  else joinSep ['\n'] ((bestOf query chunks top_k).map renderPair)

/-! ### JSON values and a model of Python json.loads -/

/-- JSON values as decoded by json.loads: numbers keep their lexeme
(the numeric conversion never fails on a valid lexeme and no claim depends
on numeric values), objects keep their field list in source order. -/
inductive Json where
  | null
  | bool (b : Bool)
  | num (lit : List Char)
  | str (s : List Char)
  | arr (elems : List Json)
  | obj (fields : List (List Char × Json))

def quoteChar : Char := Char.ofNat 34

def oBrace : Char := Char.ofNat 123

def cBrace : Char := Char.ofNat 125

/-- JSON inter-token whitespace (the characters of the decoder's
whitespace regex: space, tab, newline, carriage return). -/
def isJsonWs (c : Char) : Bool :=
  decide (c.toNat = 32 ∨ c.toNat = 9 ∨ c.toNat = 10 ∨ c.toNat = 13)

def skipWs (s : List Char) : List Char := s.dropWhile isJsonWs

def isDigit (c : Char) : Bool := decide (48 ≤ c.toNat ∧ c.toNat ≤ 57)

def isDigit19 (c : Char) : Bool := decide (49 ≤ c.toNat ∧ c.toNat ≤ 57)

def isHexDigit (c : Char) : Bool :=
  decide ((48 ≤ c.toNat ∧ c.toNat ≤ 57) ∨ (97 ≤ c.toNat ∧ c.toNat ≤ 102) ∨
    (65 ≤ c.toNat ∧ c.toNat ≤ 70))

def hexVal (c : Char) : Nat :=
  if 48 ≤ c.toNat ∧ c.toNat ≤ 57 then c.toNat - 48
  else if 97 ≤ c.toNat ∧ c.toNat ≤ 102 then c.toNat - 87
  else c.toNat - 55

/-- The two-character escapes accepted inside JSON strings. -/
def escChar (e : Char) : Option Char :=
  if e = quoteChar then some quoteChar
  else if e = '\\' then some '\\'
  else if e = '/' then some '/'
  else if e = 'b' then some (Char.ofNat 8)
  else if e = 'f' then some (Char.ofNat 12)
  else if e = 'n' then some '\n'
  else if e = 'r' then some (Char.ofNat 13)
  else if e = 't' then some (Char.ofNat 9)
  else none

/-- JSON string body parser (after the opening quote): returns the decoded
characters and the input after the closing quote.  Unescaped control
characters are rejected (strict mode).  Surrogate pairs in consecutive
backslash-u escapes are combined as the Python decoder does; a lone
surrogate is passed to `Char.ofNat`, whose out-of-range fallback stands in
for the unrepresentable Python lone-surrogate string. -/
def parseJString : Nat → List Char → Option (List Char × List Char)
  | 0, _ => none
  | fuel + 1, s =>
    match s with
    | [] => none
    | c :: rest =>
      if c = quoteChar then some ([], rest)
      else if c = '\\' then
        match rest with
        | [] => none
        | e :: r2 =>
          if e = 'u' then
            match r2 with
            | h1 :: h2 :: h3 :: h4 :: r3 =>
              if isHexDigit h1 && isHexDigit h2 && isHexDigit h3 && isHexDigit h4 then
                let code := hexVal h1 * 4096 + hexVal h2 * 256 + hexVal h3 * 16 + hexVal h4
                if 55296 ≤ code ∧ code ≤ 56319 then
                  match r3 with
                  | b1 :: b2 :: h5 :: h6 :: h7 :: h8 :: r4 =>
                    if b1 = '\\' ∧ b2 = 'u' ∧
                        (isHexDigit h5 && isHexDigit h6 && isHexDigit h7 && isHexDigit h8)
                          = true then
                      let code2 :=
                        hexVal h5 * 4096 + hexVal h6 * 256 + hexVal h7 * 16 + hexVal h8
                      if 56320 ≤ code2 ∧ code2 ≤ 57343 then
                        (parseJString fuel r4).map (fun pr =>
                          (Char.ofNat (65536 + (code - 55296) * 1024 + (code2 - 56320))
                            :: pr.1, pr.2))
                      else (parseJString fuel r3).map (fun pr =>
                        (Char.ofNat code :: pr.1, pr.2))
                    else (parseJString fuel r3).map (fun pr =>
                      (Char.ofNat code :: pr.1, pr.2))
                  | _ => (parseJString fuel r3).map (fun pr =>
                      (Char.ofNat code :: pr.1, pr.2))
                else (parseJString fuel r3).map (fun pr => (Char.ofNat code :: pr.1, pr.2))
              else none
            | _ => none
          else
            match escChar e with
            | some ec => (parseJString fuel r2).map (fun pr => (ec :: pr.1, pr.2))
            | none => none
      else if c.toNat < 32 then none
      else (parseJString fuel rest).map (fun pr => (c :: pr.1, pr.2))

/-- JSON number lexer, the decoder's number regex:
optional minus, integer part (0 or nonzero-led digits), optional fraction
(dot plus at least one digit), optional exponent. -/
def parseNumber (s : List Char) : Option (List Char × List Char) :=
  let core : List Char → Option (List Char × List Char) := fun t =>
    match t with
    | c :: rest =>
      if c = '0' then some ([c], rest)
      else if isDigit19 c then
        some (c :: rest.takeWhile isDigit, rest.drop (rest.takeWhile isDigit).length)
      else none
    | [] => none
  let withFrac : List Char × List Char → List Char × List Char := fun pr =>
    match pr.2 with
    | c :: r2 =>
      if c = '.' then
        match r2.takeWhile isDigit with
        | [] => pr
        | ds => (pr.1 ++ c :: ds, r2.drop ds.length)
      else pr
    | [] => pr
  let withExp : List Char × List Char → List Char × List Char := fun pr =>
    match pr.2 with
    | c :: r2 =>
      if c = 'e' ∨ c = 'E' then
        match r2 with
        | sgn :: r3 =>
          if sgn = '+' ∨ sgn = '-' then
            match r3.takeWhile isDigit with
            | [] => pr
            | ds => (pr.1 ++ c :: sgn :: ds, r3.drop ds.length)
          else
            match r2.takeWhile isDigit with
            | [] => pr
            | ds => (pr.1 ++ c :: ds, r2.drop ds.length)
        | [] => pr
      else pr
    | [] => pr
  match s with
  | c :: rest =>
    if c = '-' then
      match core rest with
      | some pr => some (withExp (withFrac (c :: pr.1, pr.2)))
      | none => none
    else
      match core s with
      | some pr => some (withExp (withFrac pr))
      | none => none
  | [] => none

/-- Object member loop: positioned at a key quote; parses
key : value pairs separated by commas until the closing brace. -/
def membersLoop (pv : List Char → Option (Json × List Char)) :
    Nat → List Char → List (List Char × Json) → Option (Json × List Char)
  | 0, _, _ => none
  | fuel + 1, s, acc =>
    match s with
    | [] => none
    | c :: rest =>
      if c = quoteChar then
        match parseJString (rest.length + 1) rest with
        | some (key, r1) =>
          match skipWs r1 with
          | c2 :: r2 =>
            if c2 = ':' then
              match pv (skipWs r2) with
              | some (v, r3) =>
                match skipWs r3 with
                | c3 :: r4 =>
                  if c3 = ',' then membersLoop pv fuel (skipWs r4) (acc ++ [(key, v)])
                  else if c3 = cBrace then some (.obj (acc ++ [(key, v)]), r4)
                  else none
                | [] => none
              | none => none
            else none
          | [] => none
        | none => none
      else none

/-- Array element loop: positioned at a value; parses values separated by
commas until the closing bracket. -/
def elemsLoop (pv : List Char → Option (Json × List Char)) :
    Nat → List Char → List Json → Option (Json × List Char)
  | 0, _, _ => none
  | fuel + 1, s, acc =>
    match pv s with
    | some (v, r) =>
      match skipWs r with
      | c :: r2 =>
        if c = ',' then elemsLoop pv fuel (skipWs r2) (acc ++ [v])
        else if c = ']' then some (.arr (acc ++ [v]), r2)
        else none
      | [] => none
    | none => none

/-- One JSON value: the scanner of the Python decoder.  The literal order
mirrors the scanner: string, object, array, null, true, false, number,
then the NaN and Infinity constants. -/
def parseValue : Nat → List Char → Option (Json × List Char)
  | 0, _ => none
  | fuel + 1, s =>
    match s with
    | [] => none
    | c :: rest =>
      if c = quoteChar then
        match parseJString (rest.length + 1) rest with
        | some (str, r) => some (.str str, r)
        | none => none
      else if c = oBrace then
        match skipWs rest with
        | c2 :: r2 =>
          if c2 = cBrace then some (.obj [], r2)
          else membersLoop (parseValue fuel) (r2.length + 2) (c2 :: r2) []
        | [] => none
      else if c = '[' then
        match skipWs rest with
        | c2 :: r2 =>
          if c2 = ']' then some (.arr [], r2)
          else elemsLoop (parseValue fuel) (r2.length + 2) (c2 :: r2) []
        | [] => none
      else if ("null").data.isPrefixOf s then some (.null, s.drop 4)
      else if ("true").data.isPrefixOf s then some (.bool true, s.drop 4)
      else if ("false").data.isPrefixOf s then some (.bool false, s.drop 5)
      else
        match parseNumber s with
        | some pr => some (.num pr.1, pr.2)
        | none =>
          if ("NaN").data.isPrefixOf s then some (.num ("NaN").data, s.drop 3)
          else if ("Infinity").data.isPrefixOf s then some (.num ("Infinity").data, s.drop 8)
          else if ("-Infinity").data.isPrefixOf s then
            some (.num ("-Infinity").data, s.drop 9)
          else none

/-- json.loads: skip leading whitespace, decode one value, and require
that only whitespace follows; `none` is a json.JSONDecodeError. -/
def jsonParse (s : List Char) : Option Json :=
  match parseValue (s.length + 1) (skipWs s) with
  | some (v, rest) => if skipWs rest = [] then some v else none
  | none => none

/-- Python dict lookup on the decoded field list: a duplicate key keeps
the last binding, as dict construction does. -/
def jget (fields : List (List Char × Json)) (k : List Char) : Option Json :=
  match fields.reverse.find? (fun f => decide (f.1 = k)) with
  | some f => some f.2
  | none => none

/-! ### Router response parsing -/

/-- The span matched by searching the raw response for the greedy
dot-matches-newline pattern brace...brace: the match starts at the first
opening brace that is followed by some closing brace, and extends to the
last closing brace of the whole string. -/
def extractSpan (raw : List Char) : Option (List Char) :=
  match raw.findIdx? (fun c => c = oBrace) with
  | none => none
  | some i =>
    match (raw.drop (i + 1)).reverse.findIdx? (fun c => c = cBrace) with
    | none => none
    | some r => some ((raw.drop i).take ((raw.drop (i + 1)).length - r + 1))

/-- The typed decision produced by parse_router_response: the raw code
reads the fields with dict.get, so each is the decoded JSON value
(action defaults to the empty string). -/
structure RouterDecision where
  action : Json
  query : Option Json
  answer : Option Json

/-- The two failure kinds of parse_router_response.  Both are raised as
ValueError in the source; they carry distinct message texts (rendered by
`routerErrMsg`).  `notADict` stands for the AttributeError that dict.get
would raise on a non-object decode; it is unreachable because an
extracted span always starts with an opening brace. -/
inductive RouterErr where
  | noJson (raw : List Char)
  | invalidJson (raw : List Char)
  | notADict (raw : List Char)

/-- The ValueError message texts of parse_router_response.  The embedded
json.JSONDecodeError detail of the invalid-JSON message is an external
library string and is not modelled. -/
def routerErrMsg : RouterErr → List Char
  | .noJson raw => ("No JSON found in response:\n").data ++ raw
  | .invalidJson raw => ("Invalid JSON: ").data ++ ("\nRaw output:\n").data ++ raw
  | .notADict _ => ("AttributeError").data

def actionKey : List Char := ("action").data

def queryKey : List Char := ("query").data

def answerKey : List Char := ("answer").data

/-- parse_router_response from src/agent.py: extract the brace span,
decode it, and build the typed decision. -/
def parse_router_response (raw : List Char) : Except RouterErr RouterDecision :=
  match extractSpan raw with
  | none => .error (.noJson raw)
  | some span =>
    match jsonParse span with
    | none => .error (.invalidJson raw)
    | some (Json.obj fields) =>
      .ok { action := (jget fields actionKey).getD (Json.str [])
            query := jget fields queryKey
            answer := jget fields answerKey }
    | some _ => .error (.notADict raw)

/-! ### The orchestrator (finished agent_once and the main loop body) -/

inductive TransportErr where
  | timeout
  | connError
  | httpError (code : Nat)

/-- Exceptions that can escape agent_once: a requests transport failure
raised inside chat, or a dynamic-typing AttributeError (dict.get on a
non-dict decode, str.lower on a non-string query). -/
inductive PyExn where
  | transport (t : TransportErr)
  | attributeError

def sysRole : List Char := ("system").data

def userRole : List Char := ("user").data

/-- ROUTER_SYSTEM_PROMPT of the finished agent (brace characters written
with their escapes). -/
def ROUTER_SYSTEM_PROMPT : List Char :=
  ("\nYou are a router for a tiny agent.\nYou can do ONE tool call: SEARCH_DOCS.\n\nImportant context:\n- The local documents contain ONLY the user\x27s personal travel journal\n  (cities visited, dates, places, activities).\n- The model itself does NOT know this information unless it searches.\n\nRouting rules (must follow):\n\n1) If the question is about the user\x27s personal life or past\n   (travel, cities, places, dates, activities, where they have been),\n   you MUST choose SEARCH_DOCS.\n\n2) Only choose NO_SEARCH for general world knowledge\n   that does NOT depend on the user\x27s personal history.\n\nOutput exactly ONE line of JSON:\n- \x7b\"action\":\"SEARCH_DOCS\",\"query\":\"...\"\x7d\n- \x7b\"action\":\"NO_SEARCH\",\"answer\":\"...\"\x7d\n\nDo not explain your reasoning.\n").data

/-- ANSWER_SYSTEM_PROMPT of the finished agent. -/
def ANSWER_SYSTEM_PROMPT : List Char :=
  ("\nYou are a helpful assistant answering questions about the user\x27s personal travel journal.\n\nRules:\n- Use ONLY the retrieved snippets as facts.\n- If snippets are provided:\n  - Answer in 2-5 sentences.\n  - Summarize naturally (do not copy text verbatim).\n  - Cite the journal source file at the end of sentences that use it,\n    e.g. (travel_journal.txt).\n\n- If the tool result is NO_RESULTS:\n  - Say clearly that this information is not found in the travel journal.\n\n- Do NOT invent places, dates, or activities.\n- If unsure, say you don\x27t know based on the journal.\n").data

/-- The router call's message list. -/
def routerMessages (user_text : List Char) : List (List Char × List Char) :=
  [(sysRole, ROUTER_SYSTEM_PROMPT), (userRole, user_text)]

/-- The user content of the answering call. -/
def answerUserContent (user_text tool_result : List Char) : List Char :=
  ("Question: ").data ++ user_text ++ ("\n\nRetrieved:\n").data ++ tool_result

/-- The answering call's message list. -/
def answerMessages (user_text tool_result : List Char) : List (List Char × List Char) :=
  [(sysRole, ANSWER_SYSTEM_PROMPT), (userRole, answerUserContent user_text tool_result)]

/-- Python repr of a decoded JSON value, used only in the unknown-action
message (string escaping inside repr is not modelled). -/
def pyReprJson : Json → List Char
  | .null => ("None").data
  | .bool true => ("True").data
  | .bool false => ("False").data
  | .num lit => lit
  | .str s => Char.ofNat 39 :: s ++ [Char.ofNat 39]
  | .arr xs => '[' :: joinSep ((", ").data) (xs.attach.map (fun a => pyReprJson a.1)) ++ [']']
  | .obj fs => oBrace :: joinSep ((", ").data)
      (fs.attach.map (fun f => (Char.ofNat 39 :: f.1.1 ++ [Char.ofNat 39]) ++ (": ").data
        ++ pyReprJson f.1.2)) ++ [cBrace]
decreasing_by
  · have h1 := List.sizeOf_lt_of_mem a.2
    simp only [Json.arr.sizeOf_spec]
    omega
  · have h1 := List.sizeOf_lt_of_mem f.2
    have h2 : sizeOf f.1.2 < sizeOf f.1 := by
      rcases f with ⟨⟨a, b⟩, hab⟩
      simp
    simp only [Json.obj.sizeOf_spec]
    omega

def routerNoJsonLine (router_out : List Char) : List Char :=
  ("(Router error) Model did not return JSON:\n").data ++ router_out

/-- The json.JSONDecodeError detail is an external library string and is
not modelled. -/
def routerInvalidJsonLine (router_out : List Char) : List Char :=
  ("(Router error) Invalid JSON in response: ").data ++ ("\nRaw output:\n").data ++ router_out

def unknownActionLine (fields : List (List Char × Json)) : List Char :=
  ("(Router error) Unknown action: ").data ++ pyReprJson (Json.obj fields)

def NO_SEARCH_LIT : List Char := ("NO_SEARCH").data

def SEARCH_DOCS_LIT : List Char := ("SEARCH_DOCS").data

def noAnswerLit : List Char := ("(no answer)").data

/-- The comparison decision.get("action") == lit: false when the field is
absent or not a string. -/
def actionIs (fields : List (List Char × Json)) (lit : List Char) : Bool :=
  match jget fields actionKey with
  | some (Json.str a) => decide (a = lit)
  | _ => false

/-- The SEARCH_DOCS branch of agent_once: run the keyword search with
top_k = 3 and issue the answering call. -/
def searchBranch (user_text : List Char) (chunks : List Fragment)
    (chatO : List (List Char × List Char) → Except TransportErr (List Char))
    (query : List Char) : Except PyExn Json :=
  match chatO (answerMessages user_text (search_docs query chunks 3)) with
  | .ok resp => .ok (.str resp)
  | .error t => .error (.transport t)

/-- agent_once from finished/agent.py.  The remote model is the oracle
`chatO` mapping a message list to a reply or a transport failure;
`.error` is an exception escaping agent_once, `.ok` its return value
(a Python value: the answer string, or whatever dict.get produced). -/
def agent_once (user_text : List Char) (chunks : List Fragment)
    (chatO : List (List Char × List Char) → Except TransportErr (List Char)) :
    Except PyExn Json :=
  match chatO (routerMessages user_text) with
  | .error t => .error (.transport t)
  | .ok router_out =>
    match extractSpan router_out with
    | none => .ok (.str (routerNoJsonLine router_out))
    | some span =>
      match jsonParse span with
      | none => .ok (.str (routerInvalidJsonLine router_out))
      | some (Json.obj fields) =>
        if actionIs fields NO_SEARCH_LIT then
          .ok ((jget fields answerKey).getD (.str noAnswerLit))
        else if actionIs fields SEARCH_DOCS_LIT then
          match (jget fields queryKey).getD (.str user_text) with
          | Json.str q => searchBranch user_text chunks chatO q
          | _ => .error .attributeError
        else .ok (.str (unknownActionLine fields))
      | some _ => .error .attributeError

def transportErrMsg : TransportErr → List Char
  | .timeout => ("ReadTimeout").data
  | .connError => ("ConnectionError").data
  | .httpError code => ("HTTPError ").data ++ natToChars code

def pyExnMsg : PyExn → List Char
  | .transport t => transportErrMsg t
  | .attributeError => ("AttributeError").data

/-- Python str() of a value interpolated into an f-string. -/
def pyStrJson : Json → List Char
  | .str s => s
  | j => pyReprJson j

/-- The body of the interactive loop in main: a turn's answer is printed,
and any exception escaping agent_once is caught and printed as the
turn's ERROR text; either way the loop continues with a string. -/
def mainTurn (user_text : List Char) (chunks : List Fragment)
    (chatO : List (List Char × List Char) → Except TransportErr (List Char)) :
    List Char :=
  match agent_once user_text chunks chatO with
  | .ok answer => ("\nAgent: ").data ++ pyStrJson answer ++ ("\n").data
  | .error e => ("\nERROR: ").data ++ pyExnMsg e ++ ("\n").data

/-! ### Lemmas about the tokenizer scanner -/

theorem runsAux_append_sep {p : Char → Bool} {a : Char} (ha : p a = false) :
    ∀ (xs : List Char) (cur : List Char) (ys : List Char),
    runsAux p (xs ++ a :: ys) cur = runsAux p xs cur ++ runsAux p ys []
  | [], cur, ys => by
    cases hc : cur.isEmpty <;> simp [runsAux, ha, hc]
  | c :: xs, cur, ys => by
    by_cases hpc : p c
    · simpa [runsAux, hpc] using runsAux_append_sep ha xs (c :: cur) ys
    · cases hc : cur.isEmpty <;>
        simp [runsAux, hpc, hc, runsAux_append_sep ha xs [] ys]

/-- A separator character splits `runs` into independent halves. -/
theorem runs_append_sep {p : Char → Bool} {a : Char} (ha : p a = false)
    (xs ys : List Char) : runs p (xs ++ a :: ys) = runs p xs ++ runs p ys :=
  runsAux_append_sep ha xs [] ys

theorem runsAux_all {p : Char → Bool} :
    ∀ (w cur : List Char), (∀ c ∈ w, p c = true) →
    runsAux p w cur = if (cur.reverse ++ w).isEmpty then [] else [cur.reverse ++ w]
  | [], cur, _ => by cases cur <;> simp [runsAux]
  | c :: w, cur, h => by
    have hpc : p c = true := h c (by simp)
    have ih := runsAux_all w (c :: cur) (fun d hd => h d (by simp [hd]))
    rw [show runsAux p (c :: w) cur = runsAux p w (c :: cur) by simp [runsAux, hpc], ih]
    simp [List.reverse_cons, List.append_assoc]

/-- A nonempty word made of run characters is a single run. -/
theorem runs_all {p : Char → Bool} (w : List Char) (hw : w ≠ [])
    (h : ∀ c ∈ w, p c = true) : runs p w = [w] := by
  rw [runs, runsAux_all w [] h]
  simp [List.isEmpty_iff, hw]

theorem mem_runsAux {p : Char → Bool} :
    ∀ (l cur w : List Char), (∀ c ∈ cur, p c = true) →
    w ∈ runsAux p l cur → w ≠ [] ∧ ∀ c ∈ w, p c = true
  | [], cur, w, hcur, hw => by
    cases hc : cur.isEmpty with
    | true => simp [runsAux, hc] at hw
    | false =>
      simp [runsAux, hc] at hw
      subst hw
      refine ⟨?_, fun c hc2 => hcur c (List.mem_reverse.mp hc2)⟩
      simp only [ne_eq, List.reverse_eq_nil_iff]
      intro h
      simp [h] at hc
  | c :: l, cur, w, hcur, hw => by
    by_cases hpc : p c
    · refine mem_runsAux l (c :: cur) w ?_ (by simpa [runsAux, hpc] using hw)
      intro d hd
      rcases List.mem_cons.mp hd with h | h
      · rw [h]
        exact hpc
      · exact hcur d h
    · cases hc : cur.isEmpty with
      | true =>
        exact mem_runsAux l [] w (by simp) (by simpa [runsAux, hpc, hc] using hw)
      | false =>
        simp only [runsAux, hpc, if_false, hc, Bool.false_eq_true, List.mem_cons] at hw
        rcases hw with hw | hw
        · subst hw
          refine ⟨?_, fun d hd => hcur d (List.mem_reverse.mp hd)⟩
          simp only [ne_eq, List.reverse_eq_nil_iff]
          intro h
          simp [h] at hc
        · exact mem_runsAux l [] w (by simp) hw

/-- Every token produced by `_tokenize` is a nonempty word of characters of
the token class. -/
theorem mem_tokenize {s w : List Char} (hw : w ∈ _tokenize s) :
    w ≠ [] ∧ ∀ c ∈ w, isTokChar c = true :=
  mem_runsAux (s.map lowerChar) [] w (by simp) (by simpa [_tokenize, runs] using hw)

theorem lowerChar_fix_tok {c : Char} (h : isTokChar c = true) : lowerChar c = c := by
  simp only [isTokChar, decide_eq_true_eq] at h
  rw [lowerChar, if_neg]
  omega

theorem map_id_of_fix {f : Char → Char} :
    ∀ l : List Char, (∀ c ∈ l, f c = c) → l.map f = l
  | [], _ => rfl
  | c :: l, h => by
    simp only [List.map_cons, h c (by simp), List.cons.injEq, true_and]
    exact map_id_of_fix l (fun d hd => h d (by simp [hd]))

theorem mem_joinSep {c : Char} {sep : List Char} :
    ∀ ws : List (List Char), c ∈ joinSep sep ws → c ∈ sep ∨ ∃ w ∈ ws, c ∈ w
  | [], h => by simp [joinSep] at h
  | [x], h => by
    right
    exact ⟨x, by simp, by simpa [joinSep] using h⟩
  | x :: y :: xs, h => by
    simp only [joinSep, List.mem_append] at h
    rcases h with (h | h) | h
    · exact Or.inr ⟨x, by simp, h⟩
    · exact Or.inl h
    · rcases mem_joinSep (y :: xs) h with h | ⟨w, hw, hc⟩
      · exact Or.inl h
      · exact Or.inr ⟨w, by simp [List.mem_cons.mp hw], hc⟩

theorem runs_joinSep {p : Char → Bool} {sep : Char} (hsep : p sep = false) :
    ∀ ws : List (List Char), (∀ w ∈ ws, ∀ c ∈ w, p c = true) →
    runs p (joinSep [sep] ws) = ws.filter (fun w => !w.isEmpty)
  | [], _ => rfl
  | [x], h => by
    cases hx : x.isEmpty with
    | true =>
      have : x = [] := List.isEmpty_iff.mp hx
      subst this
      simp [joinSep, runs, runsAux]
    | false =>
      have hne : x ≠ [] := by
        intro hh
        simp [hh] at hx
      simp [joinSep, runs_all x hne (h x (by simp)), hx]
  | x :: y :: xs, h => by
    have ih := runs_joinSep hsep (y :: xs) (fun w hw => h w (by simp [List.mem_cons.mp hw]))
    show runs p (x ++ [sep] ++ joinSep [sep] (y :: xs)) = _
    rw [List.append_assoc, List.singleton_append, runs_append_sep hsep, ih]
    cases he : x.isEmpty with
    | true =>
      have hx : x = [] := List.isEmpty_iff.mp he
      subst hx
      simp [runs, runsAux]
    | false =>
      have hne : x ≠ [] := by
        intro hh
        simp [hh] at he
      rw [runs_all x hne (h x (by simp))]
      simp [he]

/-! ### Lemmas about `pyStrip` -/

theorem dropWhile_idem (p : Char → Bool) :
    ∀ l : List Char, (l.dropWhile p).dropWhile p = l.dropWhile p
  | [] => rfl
  | c :: l => by
    by_cases h : p c
    · simpa [List.dropWhile_cons, h] using dropWhile_idem p l
    · simp [List.dropWhile_cons, h]

theorem head_dropWhile_false (p : Char → Bool) :
    ∀ (l h : List Char) (c : Char), l.dropWhile p = c :: h → p c = false
  | [], _, _, hw => by simp at hw
  | b :: l, h, c, hw => by
    by_cases hb : p b
    · exact head_dropWhile_false p l h c (by simpa [List.dropWhile_cons, hb] using hw)
    · rw [List.dropWhile_cons_of_neg hb] at hw
      cases hw
      simpa using hb

theorem dropWhile_eq_self_of_head (p : Char → Bool) (l : List Char)
    (h : ∀ c t, l = c :: t → p c = false) : l.dropWhile p = l := by
  cases l with
  | nil => rfl
  | cons c t => exact List.dropWhile_cons_of_neg (by simp [h c t rfl])

/-- Stripping is idempotent. -/
theorem pyStrip_idem (s : List Char) : pyStrip (pyStrip s) = pyStrip s := by
  have step1 : (pyStrip s).dropWhile isPyWs = pyStrip s := by
    apply dropWhile_eq_self_of_head
    intro c t' hct
    -- the head of the stripped list is the head of s.dropWhile, hence not whitespace
    have hdecomp := List.takeWhile_append_dropWhile (p := isPyWs)
      (l := (s.dropWhile isPyWs).reverse)
    have ht2 : pyStrip s ++ ((s.dropWhile isPyWs).reverse.takeWhile isPyWs).reverse
        = s.dropWhile isPyWs := by
      have h2 := congrArg List.reverse hdecomp
      rw [List.reverse_append, List.reverse_reverse] at h2
      exact h2
    rw [hct, List.cons_append] at ht2
    exact head_dropWhile_false isPyWs s _ c ht2.symm
  show (((pyStrip s).dropWhile isPyWs).reverse.dropWhile isPyWs).reverse = pyStrip s
  rw [step1]
  show (((s.dropWhile isPyWs).reverse.dropWhile isPyWs).reverse.reverse.dropWhile
    isPyWs).reverse = pyStrip s
  rw [List.reverse_reverse, dropWhile_idem]
  rfl

/-! ### Lemmas about decimal rendering and line joining -/

theorem digit_natToCharsAux :
    ∀ (fuel n : Nat) (acc : List Char), (∀ c ∈ acc, 48 ≤ c.toNat ∧ c.toNat ≤ 57) →
    ∀ c ∈ natToCharsAux fuel n acc, 48 ≤ c.toNat ∧ c.toNat ≤ 57
  | 0, _, _, hacc => hacc
  | fuel + 1, n, acc, hacc => by
    have hd : ∀ d : Nat, d < 10 → 48 ≤ (digitChar d).toNat ∧ (digitChar d).toNat ≤ 57 := by
      decide
    have hmod := hd (n % 10) (Nat.mod_lt _ (by decide))
    have hacc1 : ∀ c ∈ digitChar (n % 10) :: acc, 48 ≤ c.toNat ∧ c.toNat ≤ 57 := by
      intro c hc
      rcases List.mem_cons.mp hc with h | h
      · simpa [h] using hmod
      · exact hacc c h
    intro c hc
    rw [natToCharsAux] at hc
    by_cases hn : n < 10
    · simp only [hn, if_true] at hc
      exact hacc1 c hc
    · simp only [hn, if_false] at hc
      exact digit_natToCharsAux fuel (n / 10) _ hacc1 c hc

/-- The decimal rendering of a score contains no newline. -/
theorem natToChars_count_newline (n : Nat) : (natToChars n).count '\n' = 0 := by
  rw [List.count_eq_zero]
  intro hmem
  have h := digit_natToCharsAux (n + 1) n [] (by simp) _ hmem
  have h10 : ('\n').toNat = 10 := rfl
  omega

theorem count_joinSep_newline :
    ∀ pieces : List (List Char), pieces ≠ [] →
    (∀ x ∈ pieces, x.count '\n' = 0) →
    (joinSep ['\n'] pieces).count '\n' + 1 = pieces.length
  | [], h, _ => absurd rfl h
  | [x], _, hx => by
    show x.count '\n' + 1 = 1
    rw [hx x (by simp)]
  | x :: y :: xs, _, hx => by
    have ih := count_joinSep_newline (y :: xs) (by simp)
      (fun w hw => hx w (by simp [List.mem_cons.mp hw]))
    show (x ++ ['\n'] ++ joinSep ['\n'] (y :: xs)).count '\n' + 1 = (x :: y :: xs).length
    rw [List.count_append, List.count_append, hx x (by simp)]
    have hone : (['\n'] : List Char).count '\n' = 1 := by decide
    rw [hone]
    simp only [List.length_cons] at ih ⊢
    omega

/-! ### Lemmas about the retrieval pipeline -/

/-- The filtering loop keeps exactly the positively scored chunks, in
corpus order. -/
theorem scoredOf_eq_filter (q : List Char) (c : List Fragment) :
    scoredOf q c
      = (c.map (fun ch => (scoreOf q ch, ch))).filter (fun x => decide (0 < x.1)) := by
  induction c with
  | nil => rfl
  | cons ch t ih =>
    by_cases h : 0 < scoreOf q ch <;>
      simp [scoredOf, List.filterMap_cons, List.filter_cons, h, ← ih, scoredOf]

theorem scoredOf_eq_nil_iff (q : List Char) (c : List Fragment) :
    scoredOf q c = [] ↔ ∀ ch ∈ c, scoreOf q ch = 0 := by
  rw [scoredOf, List.filterMap_eq_nil_iff]
  constructor
  · intro h ch hch
    have := h ch hch
    by_cases hp : 0 < scoreOf q ch
    · simp [hp] at this
    · omega
  · intro h ch hch
    simp [h ch hch]

theorem sortedScoredOf_perm (q : List Char) (c : List Fragment) :
    sortedScoredOf q c ~ scoredOf q c :=
  List.perm_insertionSort scoreRel (scoredOf q c)

theorem sortedScoredOf_pairwise (q : List Char) (c : List Fragment) :
    (sortedScoredOf q c).Pairwise scoreRel :=
  List.sorted_insertionSort scoreRel (scoredOf q c)

/-- Stability: restricted to any one score value, the sorted list is the
original filtered list. -/
theorem sortedScoredOf_filter_score (q : List Char) (c : List Fragment) (s : Nat) :
    (sortedScoredOf q c).filter (fun x => decide (x.1 = s))
      = (scoredOf q c).filter (fun x => decide (x.1 = s)) := by
  have hpair : ((scoredOf q c).filter (fun x => decide (x.1 = s))).Pairwise scoreRel := by
    apply List.pairwise_of_forall_mem_list
    intro a ha b hb
    have ha2 := (List.mem_filter.mp ha).2
    have hb2 := (List.mem_filter.mp hb).2
    simp only [decide_eq_true_eq] at ha2 hb2
    show b.1 ≤ a.1
    omega
  have hsub : ((scoredOf q c).filter (fun x => decide (x.1 = s))) <+ sortedScoredOf q c :=
    List.sublist_insertionSort hpair (List.filter_sublist _)
  have hsub2 := hsub.filter (fun x => decide (x.1 = s))
  rw [List.filter_filter] at hsub2
  have hself : ((scoredOf q c).filter fun x => decide (x.1 = s) && decide (x.1 = s))
      = (scoredOf q c).filter (fun x => decide (x.1 = s)) := by
    congr 1
    funext x
    exact Bool.and_self _
  rw [hself] at hsub2
  have hlen : ((sortedScoredOf q c).filter (fun x => decide (x.1 = s))).length
      = ((scoredOf q c).filter (fun x => decide (x.1 = s))).length :=
    ((sortedScoredOf_perm q c).filter _).length_eq
  exact (hsub2.eq_of_length hlen.symm).symm

theorem renderPair_head (p : Nat × Fragment) :
    renderPair p = '[' :: (("source=").data ++ p.2.source ++ (" score=").data ++
      natToChars p.1 ++ ("] ").data ++ p.2.text) := by
  show (("[source=").data ++ p.2.source ++ (" score=").data ++ natToChars p.1 ++
    ("] ").data ++ p.2.text) = _
  simp only [List.append_assoc]
  rfl

theorem joinSep_cons_eq (sep : List Char) (x : List Char) (xs : List (List Char)) :
    ∃ t, joinSep sep (x :: xs) = x ++ t := by
  cases xs with
  | nil => exact ⟨[], by simp [joinSep]⟩
  | cons y ys => exact ⟨sep ++ joinSep sep (y :: ys), by simp [joinSep]⟩

/-- When some chunk is kept, the rendered output starts with the bracket
character. -/
theorem search_docs_head (q : List Char) (c : List Fragment) (k : Nat)
    (h : bestOf q c k ≠ []) :
    ∃ t, search_docs q c k = '[' :: t := by
  rw [search_docs, if_neg (by simpa [List.isEmpty_iff] using h)]
  rcases hb : bestOf q c k with _ | ⟨p, rest⟩
  · exact absurd hb h
  · rw [List.map_cons]
    rcases joinSep_cons_eq ['\n'] (renderPair p) (rest.map renderPair) with ⟨t, ht⟩
    rw [ht, renderPair_head]
    exact ⟨(("source=").data ++ p.2.source ++ (" score=").data ++ natToChars p.1 ++
      ("] ").data ++ p.2.text) ++ t, rfl⟩

theorem search_docs_of_ne_nil (q : List Char) (c : List Fragment) (k : Nat)
    (h : bestOf q c k ≠ []) :
    search_docs q c k = joinSep ['\n'] ((bestOf q c k).map renderPair) := by
  rw [search_docs, if_neg (by simpa [List.isEmpty_iff] using h)]

theorem bestOf_eq_nil_iff (q : List Char) (c : List Fragment) (k : Nat) (hk : 1 ≤ k) :
    bestOf q c k = [] ↔ scoredOf q c = [] := by
  rw [bestOf, List.take_eq_nil_iff]
  constructor
  · rintro (h | h)
    · omega
    · have hperm : List.Perm ([] : List (Nat × Fragment)) (scoredOf q c) :=
        h ▸ sortedScoredOf_perm q c
      exact hperm.symm.eq_nil
  · intro h
    right
    rw [sortedScoredOf, h]
    rfl

/-! ## The claims -/

/-- C1, amended: for every query, fragment list and `top_k ≥ 1`,
search_docs keeps exactly the fragments with positive overlap score in
corpus order, sorts them by non-increasing score, returns at most `top_k`
of them, and returns the NO_RESULTS sentinel exactly when no fragment has
a positive score.  (As stated, with `top_k` unrestricted, the claim fails
at `top_k = 0`: see the counterexample.) -/
theorem c1_search_pipeline (q : List Char) (c : List Fragment) (k : Nat) (hk : 1 ≤ k) :
    scoredOf q c
      = (c.map (fun ch => (scoreOf q ch, ch))).filter (fun x => decide (0 < x.1))
    ∧ List.Perm (sortedScoredOf q c) (scoredOf q c)
    ∧ (bestOf q c k).Pairwise scoreRel
    ∧ (bestOf q c k).length ≤ k
    ∧ (search_docs q c k = NO_RESULTS ↔ ∀ ch ∈ c, scoreOf q ch = 0) := by
  refine ⟨scoredOf_eq_filter q c, sortedScoredOf_perm q c,
    List.Pairwise.sublist (List.take_sublist k _) (sortedScoredOf_pairwise q c),
    List.length_take_le k _, ?_, ?_⟩
  · intro h
    by_cases hb : bestOf q c k = []
    · exact (scoredOf_eq_nil_iff q c).mp ((bestOf_eq_nil_iff q c k hk).mp hb)
    · rcases search_docs_head q c k hb with ⟨t, ht⟩
      rw [ht] at h
      have h2 : '[' :: t = 'N' :: ("O_RESULTS").data := h
      exact absurd (List.cons.inj h2).1 (by decide)
  · intro h
    have hb : bestOf q c k = [] :=
      (bestOf_eq_nil_iff q c k hk).mpr ((scoredOf_eq_nil_iff q c).mpr h)
    rw [search_docs, if_pos (by simp [hb])]

/-- C1 counterexample: with `top_k = 0` the function returns the sentinel
even though a fragment scores positively, so the sentinel is not returned
"exactly when no fragment has a positive score" for every top_k. -/
theorem c1_counterexample :
    0 < scoreOf ("a").data ⟨("f.txt").data, ("a").data, _tokenize ("a").data⟩
    ∧ search_docs ("a").data
        [⟨("f.txt").data, ("a").data, _tokenize ("a").data⟩] 0 = NO_RESULTS := by
  decide

/-- Witness for C1 at a concrete input. -/
theorem c1_search_pipeline_witness :
    1 ≤ 3
    ∧ (search_docs ("zzz").data
        [⟨("f.txt").data, ("a").data, _tokenize ("a").data⟩] 3 = NO_RESULTS
      ↔ ∀ ch ∈ [(⟨("f.txt").data, ("a").data, _tokenize ("a").data⟩ : Fragment)],
          scoreOf ("zzz").data ch = 0) :=
  ⟨by decide,
    (c1_search_pipeline ("zzz").data
      [⟨("f.txt").data, ("a").data, _tokenize ("a").data⟩] 3 (by decide)).2.2.2.2⟩

/-- C2: ties are stable.  Restricted to any single score value `s`, the
pairs in the result are a prefix of the positively scored pairs in corpus
order, and the scored list itself lists fragments in corpus order (its
fragments form a sublist of the corpus). -/
theorem c2_stable_ties (q : List Char) (c : List Fragment) (k s : Nat) :
    ((bestOf q c k).filter (fun x => decide (x.1 = s)) <+:
      (scoredOf q c).filter (fun x => decide (x.1 = s)))
    ∧ (scoredOf q c).map Prod.snd <+ c := by
  constructor
  · rcases (⟨(sortedScoredOf q c).drop k, List.take_append_drop k _⟩ :
      bestOf q c k <+: sortedScoredOf q c) with ⟨t, ht⟩
    refine ⟨t.filter (fun x => decide (x.1 = s)), ?_⟩
    rw [← List.filter_append, ht, sortedScoredOf_filter_score]
  · rw [scoredOf_eq_filter]
    have hs := (List.filter_sublist (p := fun x => decide (0 < x.1))
      (c.map (fun ch => (scoreOf q ch, ch)))).map Prod.snd
    have h3 : List.map (Prod.snd ∘ fun ch => (scoreOf q ch, ch)) c = c := by
      rw [show (Prod.snd ∘ fun ch => (scoreOf q ch, ch)) = id from rfl, List.map_id]
    rw [List.map_map, h3] at hs
    exact hs

/-- C3 counterexample: a fragment text may contain an embedded newline
(the corpus splitter only splits on blank lines), and then one kept pair
occupies more than one line of the output: here one kept pair but the
output contains a newline, that is, two lines. -/
theorem c3_counterexample :
    (bestOf ("a").data
      [⟨("f.txt").data, ("a\nb").data, _tokenize ("a\nb").data⟩] 3).length = 1
    ∧ (search_docs ("a").data
      [⟨("f.txt").data, ("a\nb").data, _tokenize ("a\nb").data⟩] 3).count '\n' = 1 := by
  decide

theorem count_renderPair_newline (p : Nat × Fragment)
    (hs : p.2.source.count '\n' = 0) (ht : p.2.text.count '\n' = 0) :
    (renderPair p).count '\n' = 0 := by
  simp only [renderPair, List.count_append, hs, ht, natToChars_count_newline]
  decide

/-- C3, amended: each kept pair renders as one entry of the
newline-joined output; the entry embeds the source identifier, the score
and the raw text verbatim (the text is a suffix, nothing is truncated).
The entry is a single line whenever the fragment's source and text contain
no newline; a text containing a newline spans several lines. -/
theorem c3_render (q : List Char) (c : List Fragment) (k : Nat)
    (h : bestOf q c k ≠ []) :
    search_docs q c k = joinSep ['\n'] ((bestOf q c k).map renderPair)
    ∧ (∀ p ∈ bestOf q c k,
        (p.2.text <:+ renderPair p)
        ∧ (p.2.source <:+: renderPair p)
        ∧ (natToChars p.1 <:+: renderPair p))
    ∧ ((∀ p ∈ bestOf q c k, p.2.source.count '\n' = 0 ∧ p.2.text.count '\n' = 0) →
        (search_docs q c k).count '\n' + 1 = (bestOf q c k).length) := by
  refine ⟨search_docs_of_ne_nil q c k h, ?_, ?_⟩
  · intro p _
    refine ⟨⟨("[source=").data ++ p.2.source ++ (" score=").data ++ natToChars p.1 ++
        ("] ").data, rfl⟩,
      ⟨("[source=").data, (" score=").data ++ natToChars p.1 ++ ("] ").data ++ p.2.text,
        by simp [renderPair]⟩,
      ⟨("[source=").data ++ p.2.source ++ (" score=").data, ("] ").data ++ p.2.text,
        by simp [renderPair]⟩⟩
  · intro hnl
    rw [search_docs_of_ne_nil q c k h]
    rw [count_joinSep_newline ((bestOf q c k).map renderPair) (by simpa using h) ?_]
    · simp
    · intro x hx
      rcases List.mem_map.mp hx with ⟨p, hp, hpx⟩
      rw [← hpx]
      exact count_renderPair_newline p (hnl p hp).1 (hnl p hp).2

/-- Witness for C3 at a concrete input. -/
theorem c3_render_witness :
    search_docs ("rome").data
        [⟨("j.txt").data, ("rome by train").data, _tokenize ("rome by train").data⟩] 3
      = joinSep ['\n'] ((bestOf ("rome").data
          [⟨("j.txt").data, ("rome by train").data, _tokenize ("rome by train").data⟩]
          3).map renderPair) :=
  (c3_render ("rome").data
    [⟨("j.txt").data, ("rome by train").data, _tokenize ("rome by train").data⟩] 3
    (by decide)).1

/-- C5: an empty corpus (missing directory or no matching files) yields an
empty fragment sequence, and every search over it returns the sentinel. -/
theorem c5_empty_corpus :
    load_doc_chunks [] = []
    ∧ ∀ (q : List Char) (k : Nat), search_docs q (load_doc_chunks []) k = NO_RESULTS := by
  refine ⟨rfl, fun q k => ?_⟩
  have hb : bestOf q (load_doc_chunks []) k = [] := by
    simp [bestOf, sortedScoredOf, scoredOf, load_doc_chunks, List.flatMap]
  rw [search_docs, if_pos (by simp [hb])]

/-- C6: every fragment built by the corpus loader carries exactly the
token set of its text, and its text is nonempty and stripped. -/
theorem c6_fragment_invariant (files : List (List Char × List Char)) (frag : Fragment)
    (h : frag ∈ load_doc_chunks files) :
    frag.tokens = _tokenize frag.text
    ∧ frag.text ≠ []
    ∧ pyStrip frag.text = frag.text := by
  rw [load_doc_chunks, List.mem_flatMap] at h
  rcases h with ⟨f, hf, hmem⟩
  rw [chunksOfFile, List.mem_map] at hmem
  rcases hmem with ⟨p, hp, hfrag⟩
  rw [List.mem_filter] at hp
  rcases hp with ⟨hp1, hp2⟩
  rcases List.mem_map.mp hp1 with ⟨p0, _, hstrip⟩
  subst hfrag
  refine ⟨rfl, ?_, ?_⟩
  · intro hnil
    rw [show (({ source := f.1, text := p, tokens := _tokenize p } : Fragment)).text = p
      from rfl] at hnil
    rw [hnil] at hp2
    simp at hp2
  · show pyStrip p = p
    rw [← hstrip]
    exact pyStrip_idem p0

/-- Witness for C6 at a concrete input. -/
theorem c6_fragment_invariant_witness :
    (⟨("f.txt").data, ("hello world").data, _tokenize ("hello world").data⟩ : Fragment)
      ∈ load_doc_chunks [(("f.txt").data, ("  hello world\n\npart two  ").data)]
    ∧ ((⟨("f.txt").data, ("hello world").data,
          _tokenize ("hello world").data⟩ : Fragment).tokens
        = _tokenize (⟨("f.txt").data, ("hello world").data,
            _tokenize ("hello world").data⟩ : Fragment).text
      ∧ (⟨("f.txt").data, ("hello world").data,
          _tokenize ("hello world").data⟩ : Fragment).text ≠ []
      ∧ pyStrip (⟨("f.txt").data, ("hello world").data,
          _tokenize ("hello world").data⟩ : Fragment).text
        = (⟨("f.txt").data, ("hello world").data,
            _tokenize ("hello world").data⟩ : Fragment).text) :=
  ⟨by decide,
    c6_fragment_invariant [(("f.txt").data, ("  hello world\n\npart two  ").data)]
      ⟨("f.txt").data, ("hello world").data, _tokenize ("hello world").data⟩ (by decide)⟩

/-- C10: whenever some fragment scores positively (and at least one result
is requested, as in the single call site with top_k = 3), the result is
not the sentinel, and it begins with the bracket character, so the
sentinel case is unambiguous. -/
theorem c10_nonempty_not_sentinel (q : List Char) (c : List Fragment) (k : Nat)
    (hk : 1 ≤ k) (h : ∃ ch ∈ c, 0 < scoreOf q ch) :
    search_docs q c k ≠ NO_RESULTS ∧ (search_docs q c k).head? = some '[' := by
  have hb : bestOf q c k ≠ [] := by
    intro hb
    rcases h with ⟨ch, hch, hpos⟩
    have := (scoredOf_eq_nil_iff q c).mp ((bestOf_eq_nil_iff q c k hk).mp hb) ch hch
    omega
  rcases search_docs_head q c k hb with ⟨t, ht⟩
  refine ⟨?_, by rw [ht]; rfl⟩
  rw [ht]
  intro h2
  have h3 : '[' :: t = 'N' :: ("O_RESULTS").data := h2
  exact absurd (List.cons.inj h3).1 (by decide)

/-- C4: the tokenizer is idempotent: tokenizing the single-space join of
the tokens of any string yields exactly the same token set. -/
theorem c4_tokenize_idempotent (s : List Char) :
    _tokenize (joinSep [' '] (_tokenize s).toList) = _tokenize s := by
  have hws : ∀ w ∈ (_tokenize s).toList, w ≠ [] ∧ ∀ c ∈ w, isTokChar c = true :=
    fun w hw => mem_tokenize (Finset.mem_toList.mp hw)
  have hfix : (joinSep [' '] (_tokenize s).toList).map lowerChar
      = joinSep [' '] (_tokenize s).toList := by
    apply map_id_of_fix
    intro c hc
    rcases mem_joinSep _ hc with hcs | ⟨w, hw, hcw⟩
    · have hsp : c = ' ' := by simpa using hcs
      rw [hsp]
      decide
    · exact lowerChar_fix_tok ((hws w hw).2 c hcw)
  have hfs : ((_tokenize s).toList.filter (fun w => !w.isEmpty)) = (_tokenize s).toList :=
    List.filter_eq_self.mpr (fun w hw => by
      simp only [Bool.not_eq_eq_eq_not, Bool.not_true, List.isEmpty_eq_false]
      exact (hws w hw).1)
  rw [_tokenize, hfix, runs_joinSep (by decide) _ (fun w hw => (hws w hw).2), hfs,
    Finset.toList_toFinset]

/-- C7: parse_router_response fails with the no-JSON ValueError exactly
when the response has no brace-delimited span, fails with the
invalid-JSON ValueError exactly when a span is found but does not decode,
and the two failure kinds carry messages that can never coincide. -/
theorem c7_router_error_kinds (raw : List Char) :
    (parse_router_response raw = .error (.noJson raw) ↔ extractSpan raw = none)
    ∧ (parse_router_response raw = .error (.invalidJson raw)
        ↔ ∃ span, extractSpan raw = some span ∧ jsonParse span = none)
    ∧ (∀ r1 r2 : List Char, routerErrMsg (.noJson r1) ≠ routerErrMsg (.invalidJson r2)) := by
  refine ⟨?_, ?_, ?_⟩
  · cases hs : extractSpan raw with
    | none => simp [parse_router_response, hs]
    | some span =>
      cases hj : jsonParse span with
      | none => simp [parse_router_response, hs, hj]
      | some j => cases j <;> simp [parse_router_response, hs, hj]
  · cases hs : extractSpan raw with
    | none => simp [parse_router_response, hs]
    | some span =>
      cases hj : jsonParse span with
      | none => simp [parse_router_response, hs, hj]
      | some j => cases j <;> simp [parse_router_response, hs, hj]
  · intro r1 r2 h
    have h2 : 'N' :: (("o JSON found in response:\n").data ++ r1)
        = 'I' :: (("nvalid JSON: ").data ++ (("\nRaw output:\n").data ++ r2)) := h
    exact absurd (List.cons.inj h2).1 (by decide)

/-- Witness for C7 at concrete inputs: a braceless response yields the
no-JSON failure; a braced but undecodable span yields the invalid-JSON
failure. -/
theorem c7_router_error_kinds_witness :
    parse_router_response ("the model refuses").data
      = .error (.noJson ("the model refuses").data)
    ∧ parse_router_response ("json: \x7boops\x7d").data
      = .error (.invalidJson ("json: \x7boops\x7d").data) :=
  ⟨(c7_router_error_kinds _).1.mpr rfl,
   (c7_router_error_kinds _).2.1.mpr ⟨("\x7boops\x7d").data, rfl, rfl⟩⟩

/-- C8: on a SEARCH_DOCS decision whose object has no query field, the
search is run with the original user text (decision.get falls back to
user_text), so no search happens with an absent query. -/
theorem c8_missing_query_falls_back (u : List Char) (chunks : List Fragment)
    (chatO : List (List Char × List Char) → Except TransportErr (List Char))
    (r span : List Char) (fields : List (List Char × Json))
    (h1 : chatO (routerMessages u) = .ok r)
    (h2 : extractSpan r = some span)
    (h3 : jsonParse span = some (Json.obj fields))
    (h4 : actionIs fields SEARCH_DOCS_LIT = true)
    (h6 : jget fields queryKey = none) :
    agent_once u chunks chatO = searchBranch u chunks chatO u := by
  have h5 : actionIs fields NO_SEARCH_LIT = false := by
    rw [actionIs] at h4 ⊢
    cases hj : jget fields actionKey with
    | none => rfl
    | some j => cases j <;> simp_all <;> decide
  simp [agent_once, h1, h2, h3, h4, h5, h6]

/-- Witness for C8 at a concrete input: the router answers with a
SEARCH_DOCS decision carrying no query. -/
theorem c8_missing_query_falls_back_witness :
    agent_once ("where did I travel").data []
        (fun _ => .ok ("\x7b\"action\":\"SEARCH_DOCS\"\x7d").data)
      = searchBranch ("where did I travel").data []
          (fun _ => .ok ("\x7b\"action\":\"SEARCH_DOCS\"\x7d").data)
          ("where did I travel").data :=
  c8_missing_query_falls_back ("where did I travel").data []
    (fun _ => .ok ("\x7b\"action\":\"SEARCH_DOCS\"\x7d").data)
    ("\x7b\"action\":\"SEARCH_DOCS\"\x7d").data
    ("\x7b\"action\":\"SEARCH_DOCS\"\x7d").data
    [(("action").data, .str ("SEARCH_DOCS").data)]
    rfl rfl rfl rfl rfl

/-- C9 counterexample: when the router model call fails with a transport
error, agent_once does not return an error string: the exception escapes
it (its result carries no returned value at all).  The try/except that
converts the failure into the visible ERROR text sits in main's loop,
not in agent_once. -/
theorem c9_counterexample :
    agent_once ("hi").data [] (fun _ => .error .timeout) = .error (.transport .timeout)
    ∧ (agent_once ("hi").data [] (fun _ => .error .timeout)).toOption = none :=
  ⟨rfl, rfl⟩

/-- C9, amended: a TransportError from either model call propagates out
of agent_once as an exception, and the interactive loop in main catches
every exception escaping agent_once and surfaces it as the turn's ERROR
text, so the process survives the turn. -/
theorem c9_transport_error_surfaced (u : List Char) (chunks : List Fragment)
    (chatO : List (List Char × List Char) → Except TransportErr (List Char))
    (t : TransportErr) :
    (chatO (routerMessages u) = .error t →
      agent_once u chunks chatO = .error (.transport t))
    ∧ (∀ e, agent_once u chunks chatO = .error e →
        mainTurn u chunks chatO = ("\nERROR: ").data ++ pyExnMsg e ++ ("\n").data)
    ∧ (∀ (r span : List Char) (fields : List (List Char × Json)) (q : List Char),
        chatO (routerMessages u) = .ok r →
        extractSpan r = some span →
        jsonParse span = some (Json.obj fields) →
        actionIs fields NO_SEARCH_LIT = false →
        actionIs fields SEARCH_DOCS_LIT = true →
        (jget fields queryKey).getD (Json.str u) = Json.str q →
        chatO (answerMessages u (search_docs q chunks 3)) = .error t →
        agent_once u chunks chatO = .error (.transport t)) := by
  refine ⟨?_, ?_, ?_⟩
  · intro h
    simp [agent_once, h]
  · intro e he
    rw [mainTurn, he]
  · intro r span fields q h1 h2 h3 h5 h4 hq hansw
    simp [agent_once, h1, h2, h3, h4, h5, hq, searchBranch, hansw]

/-- Witness for C9 at a concrete input. -/
theorem c9_transport_error_surfaced_witness :
    agent_once ("hi").data [] (fun _ => .error .timeout) = .error (.transport .timeout)
    ∧ mainTurn ("hi").data [] (fun _ => .error .timeout)
      = ("\nERROR: ").data ++ pyExnMsg (.transport .timeout) ++ ("\n").data :=
  ⟨(c9_transport_error_surfaced ("hi").data [] (fun _ => .error .timeout) .timeout).1 rfl,
   (c9_transport_error_surfaced ("hi").data [] (fun _ => .error .timeout) .timeout).2.1
     (.transport .timeout)
     ((c9_transport_error_surfaced ("hi").data [] (fun _ => .error .timeout) .timeout).1
       rfl)⟩

/-- Witness for C10 at a concrete input. -/
theorem c10_nonempty_not_sentinel_witness :
    search_docs ("rome").data
        [⟨("j.txt").data, ("rome by train").data, _tokenize ("rome by train").data⟩] 3
      ≠ NO_RESULTS
    ∧ (search_docs ("rome").data
        [⟨("j.txt").data, ("rome by train").data, _tokenize ("rome by train").data⟩]
        3).head? = some '[' :=
  c10_nonempty_not_sentinel ("rome").data
    [⟨("j.txt").data, ("rome by train").data, _tokenize ("rome by train").data⟩] 3
    (by decide) (by decide)

end Agent
